import Mathlib

/-!
Shallow embedding of the lexus2k/pipeline dataflow runtime and proofs about
its lifecycle, queue pad, splitter, typed-node dispatch and shared-memory
ring code.  Every definition is translated from the C++ sources under
src/src and src/include/pipeline; the definitions that follow the
specification text instead of the sources are marked as such in their
doc comments.
-/

set_option maxHeartbeats 1000000

/-! ## Pipeline lifecycle state model

Translated from Pipeline::start and Pipeline::stop (src/src/pipeline.cpp,
lines 10-31) and INode::_start / INode::_stop
(src/src/pipeline_node.cpp, lines 5-26).  A pad is modelled by whether its
start call succeeds (IPad::start returns a Bool) and whether it is
currently started (for QueuePad this is the running worker; SimplePad has
no state and its start always succeeds).  A node is its pad list and a
pipeline is its node list. -/

/-- A pad of a node: whether a call to its virtual start succeeds, and
whether the pad is currently started. -/
structure Pad where
  startOk : Bool
  started : Bool
deriving DecidableEq, Repr

/-- IPad::start of a pad: on success the pad becomes started; on failure it
is left as it was (a failed start does not leave a running worker). -/
def padStart (p : Pad) : Bool × Pad :=
  if p.startOk then (true, { p with started := true }) else (false, p)

/-- IPad::stop of a pad (QueuePad::stop joins the worker and is a no-op on
a pad that is not running): the pad ends up not started. -/
def padStop (p : Pad) : Pad :=
  { p with started := false }

/-- INode::_start, pipeline_node.cpp lines 5-18: starts the pads in forward
order; if a pad start fails, the already started pads are stopped in
reverse order and false is returned.  The virtual INode::start hook is not
invoked anywhere in this function. -/
def nodeStart : List Pad → Bool × List Pad
  | [] => (true, [])
  | p :: rest =>
    match padStart p with
    | (true, p1) =>
      match nodeStart rest with
      | (true, rest1) => (true, p1 :: rest1)
      | (false, rest1) => (false, padStop p1 :: rest1)
    | (false, p1) => (false, p1 :: rest)

/-- INode::_stop, pipeline_node.cpp lines 20-26: stops every pad, iterating
the pad list in forward order.  The virtual INode::stop hook is not
invoked. -/
def nodeStop (pads : List Pad) : List Pad :=
  pads.map padStop

/-- Pipeline::start, pipeline.cpp lines 10-23: starts the nodes in forward
order; when a node fails to start, the nodes before it are stopped in
reverse order and false is returned. -/
def pipelineStart : List (List Pad) → Bool × List (List Pad)
  | [] => (true, [])
  | nd :: rest =>
    match nodeStart nd with
    | (true, nd1) =>
      match pipelineStart rest with
      | (true, rest1) => (true, nd1 :: rest1)
      | (false, rest1) => (false, nodeStop nd1 :: rest1)
    | (false, nd1) => (false, nd1 :: rest)

/-- Pipeline::stop, pipeline.cpp lines 25-31: calls INode::_stop on every
node, iterating the node list in forward order. -/
def pipelineStop (p : List (List Pad)) : List (List Pad) :=
  p.map nodeStop

/-- Every pad of every node of the pipeline is currently not started. -/
def allStopped (p : List (List Pad)) : Bool :=
  p.all (fun nd => nd.all (fun pad => !pad.started))

/-- Some pad of some node has a failing start call. -/
def anyStartFails (p : List (List Pad)) : Bool :=
  p.any (fun nd => nd.any (fun pad => !pad.startOk))

/-! ## Lifecycle call traces

The same code paths, recorded as traces of the calls they perform, so that
the order of operations of Pipeline::start and Pipeline::stop can be
stated.  An event names the call made by the pipeline machinery. -/

/-- One observable call of the lifecycle machinery: a pad start or stop
call (node index, pad index), or an invocation of a node user hook
(INode::start or INode::stop). -/
inductive Ev where
  | padStartCall (node pad : ℕ)
  | padStopCall (node pad : ℕ)
  | startHook (node : ℕ)
  | stopHook (node : ℕ)
deriving DecidableEq, Repr

/-- True when the event is an invocation of a node user hook. -/
def Ev.isHook : Ev → Bool
  | .startHook _ => true
  | .stopHook _ => true
  | _ => false

/-- Trace of INode::_stop for node n with the given number of pads: pad
stop calls in forward pad order, no hook invocation
(pipeline_node.cpp lines 20-26). -/
def nodeStopTrace (n padCount : ℕ) : List Ev :=
  (List.range padCount).map (Ev.padStopCall n)

/-- Trace of the node loop of Pipeline::stop starting at node index n,
given the pad count of each remaining node (pipeline.cpp lines 25-31):
forward iteration calling INode::_stop on each node. -/
def pipelineStopTraceAux (n : ℕ) : List ℕ → List Ev
  | [] => []
  | c :: rest => nodeStopTrace n c ++ pipelineStopTraceAux (n + 1) rest

/-- Trace of Pipeline::stop, given the pad count of each node. -/
def pipelineStopTrace (padCounts : List ℕ) : List Ev :=
  pipelineStopTraceAux 0 padCounts

/-- Modelled from the spec wording of claim C1 (not from the sources):
Pipeline.stop calls every node stop hook in reverse node order, then stops
the pads of every node in reverse order. -/
def specPipelineStopTrace (padCounts : List ℕ) : List Ev :=
  ((List.range padCounts.length).reverse.map Ev.stopHook) ++
    (padCounts.enum.reverse.map
      (fun nc => ((List.range nc.2).reverse.map (Ev.padStopCall nc.1)))).flatten

/-- Trace of the pad loop of INode::_start for node n, starting at pad
index i, given the start result of each pad (pipeline_node.cpp lines 5-18).
A padStartCall event marks the call to IPad::start (also when it fails);
on failure the pads before the failing one are stopped in reverse
order. -/
def nodeStartTraceAux (n : ℕ) : ℕ → List Bool → List Ev × Bool
  | _, [] => ([], true)
  | i, ok :: rest =>
    if ok then
      match nodeStartTraceAux n (i + 1) rest with
      | (evs, true) => (Ev.padStartCall n i :: evs, true)
      | (evs, false) => (Ev.padStartCall n i :: (evs ++ [Ev.padStopCall n i]), false)
    else ([Ev.padStartCall n i], false)

/-- Trace of the node loop of Pipeline::start starting at node index n
(pipeline.cpp lines 10-23): forward iteration calling INode::_start; on a
node failure the earlier nodes receive INode::_stop in reverse order.  No
node user hook is ever invoked. -/
def pipelineStartTraceAux (n : ℕ) : List (List Bool) → List Ev × Bool
  | [] => ([], true)
  | nd :: rest =>
    match nodeStartTraceAux n 0 nd with
    | (evs, true) =>
      match pipelineStartTraceAux (n + 1) rest with
      | (evs2, true) => (evs ++ evs2, true)
      | (evs2, false) => (evs ++ evs2 ++ nodeStopTrace n nd.length, false)
    | (evs, false) => (evs, false)

/-- Trace of Pipeline::start, given for each node its list of pad start
results. -/
def pipelineStartTrace (nodes : List (List Bool)) : List Ev × Bool :=
  pipelineStartTraceAux 0 nodes

/-! ## Bounded-queue pad

Translated from QueuePad (src/src/pipeline_pads.cpp lines 15-101 and
src/include/pipeline/pipeline_pads.h).  The queue holds (timeout, packet)
pairs exactly as the C++ member m_queue does.  The condition-variable wait
of queuePacket is modelled statically: the wait predicate is evaluated on
the state observed when the wait returns, and a wait whose predicate is
false is a timed-out wait. -/

/-- State of a QueuePad: its packet queue of (timeout, packet) pairs, the
running flag and the configured maximum queue size. -/
structure QueuePadState (P : Type) where
  queue : List (ℕ × P)
  running : Bool
  maxQueueSize : ℕ

/-- Default maximum queue size of a QueuePad, from the constructor
QueuePad(size_t N = 4) in pipeline_pads.h line 81. -/
def queuePadDefaultSize : ℕ := 4

/-- QueuePad::queuePacket, pipeline_pads.cpp lines 15-38.  Returns the
call result, the new pad state, and whether m_hasPackets was notified.
hasSpace is the wait predicate (not running, or queue length below the
maximum); if it is false the wait timed out.  On timeout or while the pad
is not running the call returns false and the queue is unchanged;
otherwise the pair (timeout, packet) is appended and m_hasPackets is
notified. -/
def queuePacket {P : Type} (s : QueuePadState P) (packet : P) (timeout : ℕ) :
    Bool × QueuePadState P × Bool :=
  let hasSpace := !s.running || decide (s.queue.length < s.maxQueueSize)
  if !hasSpace || !s.running then (false, s, false)
  else (true, { s with queue := s.queue ++ [(timeout, packet)] }, true)

/-- Outcome of one pass of the QueuePad worker loop. -/
inductive WorkerStep (P : Type) where
  | exit : WorkerStep P
  | blocked : WorkerStep P
  | deliver : ℕ × P → List (ℕ × P) → WorkerStep P
deriving DecidableEq, Repr

/-- One pass of the worker loop spawned by QueuePad::start,
pipeline_pads.cpp lines 50-77, evaluated on the running flag and queue
observed at the top of the loop.  The outer loop condition is
while (m_isRunning): with running false the worker exits at once, whatever
is still queued.  With running true it waits on m_hasPackets until the
queue is non-empty (blocked while it is empty), then the inner break
condition (not running and empty queue) is false, so it pops the head
element and delivers it to the processPacket of the node. -/
def queueWorkerStep {P : Type} (running : Bool) (q : List (ℕ × P)) : WorkerStep P :=
  if running = false then .exit
  else
    match q with
    | [] => .blocked
    | e :: rest => .deliver e rest

/-- Modelled from the spec wording of claim C8 (not from the sources): the
worker loops while running is true or the queue is non-empty, popping the
head element of a non-empty queue. -/
def specWorkerStep {P : Type} (running : Bool) (q : List (ℕ × P)) : WorkerStep P :=
  if running || !q.isEmpty then
    match q with
    | [] => .blocked
    | e :: rest => .deliver e rest
  else .exit

/-! ## Pad kinds and the splitter node

Translated from ISplitter::processPacket (src/src/pipeline_nodes.cpp
lines 6-20).  The pads of the node are given by their kinds in index order; the
outcome of IPad::pushPacket on pad i with timeout t is abstracted as the
environment function pushResult i t, because it depends on the downstream
graph. -/

/-- PadType, pipeline_pad.h lines 25-30. -/
inductive PadType where
  | INPUT
  | OUTPUT
  | UNDEFINED
deriving DecidableEq, Repr

/-- The comparison pad->getType() == PadType::OUTPUT of
pipeline_nodes.cpp line 15. -/
def PadType.isOutput : PadType → Bool
  | .OUTPUT => true
  | _ => false

/-- The pad loop of ISplitter::processPacket, pipeline_nodes.cpp
lines 10-18, starting at pad index i with accumulated result acc: walks
the pads by increasing index until getPadByIndex returns null, and for
each pad of kind OUTPUT performs result = pushPacket(packet, 0) && result.
Returns the indices pushed to, in call order, and the final result. -/
def splitterLoop (pushResult : ℕ → ℕ → Bool) :
    List PadType → ℕ → Bool → List ℕ × Bool
  | [], _, acc => ([], acc)
  | k :: rest, i, acc =>
    if k = PadType.OUTPUT then
      let r := pushResult i 0 && acc
      let next := splitterLoop pushResult rest (i + 1) r
      (i :: next.1, next.2)
    else splitterLoop pushResult rest (i + 1) acc

/-- ISplitter::processPacket, pipeline_nodes.cpp lines 6-20: the pad loop
started at index 0 with the result set to true. -/
def splitterProcessPacket (pads : List PadType) (pushResult : ℕ → ℕ → Bool) :
    List ℕ × Bool :=
  splitterLoop pushResult pads 0 true

/-! ## Typed node dispatch (Node2)

Translated from Node2::processPacket
(src/include/pipeline/pipeline_node.h lines 295-313).  The template
parameters T1, T2 become type parameters; std::dynamic_pointer_cast
becomes an Option-valued cast function; the two typed handlers are the
overridden processPacket methods of the derived class. -/

/-- Node2::processPacket, pipeline_node.h lines 295-313: the typed handler
is selected by the input pad index alone.  Index 0 attempts the cast to
T1 and on success calls the T1 handler; index 1 attempts the cast to T2
and on success calls the T2 handler; every other index, and every failed
cast, returns false. -/
def node2ProcessPacket {P T1 T2 : Type} (cast1 : P → Option T1) (cast2 : P → Option T2)
    (handler1 : T1 → Bool) (handler2 : T2 → Bool) (padIndex : ℕ) (packet : P) : Bool :=
  if padIndex = 0 then
    match cast1 packet with
    | some d => handler1 d
    | none => false
  else if padIndex = 1 then
    match cast2 packet with
    | some d => handler2 d
    | none => false
  else false

/-- The packet classes of the unit tests (src/unittests
test_template_nodes.cpp): PacketA carries a value, PacketB carries
nothing, and other packet classes are unrelated to both. -/
inductive TestPacket where
  | a (v : ℕ)
  | b
  | other
deriving DecidableEq, Repr

/-- std::dynamic_pointer_cast to PacketA: succeeds exactly on PacketA. -/
def dynCastA : TestPacket → Option ℕ
  | .a v => some v
  | _ => none

/-- std::dynamic_pointer_cast to PacketB: succeeds exactly on PacketB. -/
def dynCastB : TestPacket → Option Unit
  | .b => some ()
  | _ => none

/-- The TestNode2 of the unit tests: Node2 over PacketA and PacketB whose
two typed handlers both return true. -/
def testNode2Process (padIndex : ℕ) (packet : TestPacket) : Bool :=
  node2ProcessPacket dynCastA dynCastB (fun _ => true) (fun _ => true) padIndex packet

/-! ## Shared-memory ring

Translated from SharedPublisherNode and SharedSubscriberNode
(src/src/pipeline_sharedmem_node.cpp) over the layout of
src/src/pipeline_shared_queue.h.  The region header counters head, tail,
count are uint32 fields and writeOffset is an unsigned cursor; they are
modelled as naturals with the uint32 wrap made explicit where the code
increments or decrements them.  Packet serialization
packet->serializeTo(base + off, len) appears in two models.  The declared
interface IPacket::serializeTo / IPacket::deserializeFrom returns bool
(pipeline_packet.h lines 24 and 26), so in the compiled program the
result < 0 tests at pipeline_sharedmem_node.cpp lines 201 and 336 compare
the 0/1 integral promotion of a bool and are always false: those branches
are dead.  The definitions with the source names keep a signed-result
environment function (negative meaning failure), which is the convention
the call sites and the unit-test packet classes are written against; the
definitions suffixed Prog are the program-faithful bool-typed versions in
which the dead branches are provably unreachable. -/

/-- Number of values of a uint32 counter. -/
def U32 : ℕ := 2 ^ 32

/-- A ring slot, struct PacketHeader of pipeline_shared_queue.h: payload
size, channel number and payload offset in the region. -/
structure PacketHeader where
  size : ℕ
  channel : ℕ
  offset : ℕ
deriving DecidableEq, Repr

/-- The mutable ring state of the shared region: the arena write cursor
writeOffset, the slot-array length capacity (queue.size, fixed at
creation), the occupancy count, the head and tail indices, and the slot
array itself. -/
structure ShmState where
  writeOffset : ℕ
  capacity : ℕ
  count : ℕ
  head : ℕ
  tail : ℕ
  slots : ℕ → PacketHeader

/-- Byte offset of the first arena byte: just past the header and the slot
array, the expression sizeof(SharedMemoryHeader) + sizeof(PacketHeader) *
m_maxQueueSize used at pipeline_sharedmem_node.cpp lines 124, 202
and 214. -/
def arenaStart (hdrSize slotSize maxQ : ℕ) : ℕ :=
  hdrSize + slotSize * maxQ

/-- SharedPublisherNode::serializeToSharedMem, pipeline_sharedmem_node.cpp
lines 197-222, under the signed-result serializer convention those lines
are written against: a negative ser result means insufficient space, the
cursor is then reset to the arena start and the serialization is retried
exactly once; on success the slot at tail is filled, tail advances modulo
capacity, count is incremented, and the cursor advances by the written
size, wrapping to the arena start when it reaches the region end; on
failure false is returned with the ring slot untouched (only the reset of
writeOffset remains).  In the compiled program serializeTo returns bool
and the negative branches cannot run: serializeToSharedMemProg below is
that program-faithful version.  This signed model is kept for the ring
invariant, which its extra failure branch only makes harder. -/
def serializeToSharedMem (hdrSize slotSize maxQ mSize : ℕ) (ser : ℕ → ℕ → Int)
    (channel : ℕ) (s : ShmState) : Bool × ShmState :=
  let r0 := ser s.writeOffset (mSize - s.writeOffset)
  let wo := if r0 < 0 then arenaStart hdrSize slotSize maxQ else s.writeOffset
  let r := if r0 < 0 then ser wo (mSize - wo) else r0
  if 0 ≤ r then
    let hdr : PacketHeader := { size := r.toNat, channel := channel, offset := wo }
    let wo1 := wo + r.toNat
    (true,
      { s with
        slots := fun i => if i = s.tail then hdr else s.slots i
        tail := (s.tail + 1) % s.capacity
        count := (s.count + 1) % U32
        writeOffset := if mSize ≤ wo1 then arenaStart hdrSize slotSize maxQ else wo1 })
  else (false, { s with writeOffset := wo })

/-- SharedPublisherNode::waitForFreeSlot, pipeline_sharedmem_node.cpp
lines 171-195, in the static model: false when the region is not valid;
when the ring is full the timed wait can only end by timeout or error, so
the call returns false; otherwise a slot is free and it returns true. -/
def waitForFreeSlot (isValid : Bool) (s : ShmState) : Bool :=
  if !isValid then false
  else if s.capacity = s.count then false
  else true

/-- SharedPublisherNode::processPacket, pipeline_sharedmem_node.cpp
lines 150-169, with the region mapped: under the region mutex, wait for a
free slot and then serialize into the ring; if no slot becomes free the
delivery fails with the state unchanged. -/
def publisherProcessPacket (hdrSize slotSize maxQ mSize : ℕ) (ser : ℕ → ℕ → Int)
    (channel : ℕ) (isValid : Bool) (s : ShmState) : Bool × ShmState :=
  if waitForFreeSlot isValid s then
    serializeToSharedMem hdrSize slotSize maxQ mSize ser channel s
  else (false, s)

/-- SharedSubscriberNode::deserializeFromSharedMem,
pipeline_sharedmem_node.cpp lines 321-341, under the signed-result
deserializer convention the line 336 check is written against.  The slot
at head is read and consumed first: head advances modulo capacity and the
uint32 count is decremented, before the output pad is looked up by the
channel of the slot (hasPad), the fresh packet is constructed (createOk)
and deserializeFrom(base + offset, size) is attempted (deser, negative
meaning failure).  Each of those checks returns false without touching
the ring state again; on success the packet is pushed and the push result
is returned.  In the compiled program deserializeFrom returns bool and
the negative branch cannot run: deserializeFromSharedMemProg below is
that program-faithful version.  This signed model is kept for the ring
invariant, which its extra failure branch only makes harder. -/
def deserializeFromSharedMem (hasPad : ℕ → Bool) (createOk : Bool)
    (deser : ℕ → ℕ → Int) (pushResult : Bool) (s : ShmState) : Bool × ShmState :=
  let hdr := s.slots s.head
  let s1 : ShmState :=
    { s with
      head := (s.head + 1) % s.capacity
      count := (s.count + (U32 - 1)) % U32 }
  if !hasPad hdr.channel then (false, s1)
  else if !createOk then (false, s1)
  else if deser hdr.offset hdr.size < 0 then (false, s1)
  else (pushResult, s1)

/-- One pass of steps 3-4 of the subscriber worker loop,
pipeline_sharedmem_node.cpp lines 280-293 with waitForPacket at
lines 300-319: when the ring is empty the 100 ms wait times out and the
pass changes nothing; otherwise waitForPacket returns 0 and
deserializeFromSharedMem consumes the head slot. -/
def subscriberDequeueStep (hasPad : ℕ → Bool) (createOk : Bool)
    (deser : ℕ → ℕ → Int) (pushResult : Bool) (s : ShmState) : Bool × ShmState :=
  if s.count = 0 then (false, s)
  else deserializeFromSharedMem hasPad createOk deser pushResult s

/-- SharedPublisherNode::serializeToSharedMem as the program compiles it:
IPacket::serializeTo is declared virtual bool (pipeline_packet.h line 24),
so ser off len is a Bool and the value result of line 200 is its 0/1
integral promotion, written here as a cast of Bool.toNat to Int.  The
test result < 0 at line 201 is kept literally; it can never hold, so the
reset-and-retry branch is dead, the result >= 0 path is always taken, and
the slot at tail is consumed with size the 0/1 promotion even when the
serialization reported failure. -/
def serializeToSharedMemProg (hdrSize slotSize maxQ mSize : ℕ) (ser : ℕ → ℕ → Bool)
    (channel : ℕ) (s : ShmState) : Bool × ShmState :=
  let r0 : Int := ((ser s.writeOffset (mSize - s.writeOffset)).toNat : ℕ)
  let wo := if r0 < 0 then arenaStart hdrSize slotSize maxQ else s.writeOffset
  let r : Int := if r0 < 0 then (((ser wo (mSize - wo)).toNat : ℕ) : Int) else r0
  if 0 ≤ r then
    let hdr : PacketHeader := { size := r.toNat, channel := channel, offset := wo }
    let wo1 := wo + r.toNat
    (true,
      { s with
        slots := fun i => if i = s.tail then hdr else s.slots i
        tail := (s.tail + 1) % s.capacity
        count := (s.count + 1) % U32
        writeOffset := if mSize ≤ wo1 then arenaStart hdrSize slotSize maxQ else wo1 })
  else (false, { s with writeOffset := wo })

/-- SharedPublisherNode::processPacket over the program-faithful
bool-typed serializer. -/
def publisherProcessPacketProg (hdrSize slotSize maxQ mSize : ℕ) (ser : ℕ → ℕ → Bool)
    (channel : ℕ) (isValid : Bool) (s : ShmState) : Bool × ShmState :=
  if waitForFreeSlot isValid s then
    serializeToSharedMemProg hdrSize slotSize maxQ mSize ser channel s
  else (false, s)

/-- SharedSubscriberNode::deserializeFromSharedMem as the program compiles
it: IPacket::deserializeFrom is declared virtual bool (pipeline_packet.h
line 26), so the value result of line 335 is the 0/1 integral promotion
of a bool and the test result < 0 at line 336 can never hold: a failed
deserialization is not detected and the packet is pushed regardless, the
call returning the push result. -/
def deserializeFromSharedMemProg (hasPad : ℕ → Bool) (createOk : Bool)
    (deser : ℕ → ℕ → Bool) (pushResult : Bool) (s : ShmState) : Bool × ShmState :=
  let hdr := s.slots s.head
  let s1 : ShmState :=
    { s with
      head := (s.head + 1) % s.capacity
      count := (s.count + (U32 - 1)) % U32 }
  if !hasPad hdr.channel then (false, s1)
  else if !createOk then (false, s1)
  else if (((deser hdr.offset hdr.size).toNat : ℕ) : Int) < 0 then (false, s1)
  else (pushResult, s1)

/-- The ring state invariant of the spec: count never exceeds capacity and
the head and tail indices lie in the interval [0, capacity). -/
def ringInvariant (s : ShmState) : Prop :=
  s.count ≤ s.capacity ∧ s.head < s.capacity ∧ s.tail < s.capacity

/-! ## Helper lemmas on the lifecycle model -/

theorem padStop_eq_of_not_started (p : Pad) (h : p.started = false) : padStop p = p := by
  cases p
  simp only [padStop]
  simp_all

theorem nodeStop_allStopped (nd : List Pad) :
    (nodeStop nd).all (fun pad => !pad.started) = true := by
  simp [nodeStop, List.all_map, Function.comp, padStop]

theorem allStopped_pipelineStop (p : List (List Pad)) :
    allStopped (pipelineStop p) = true := by
  simp only [allStopped, pipelineStop, List.all_map, Function.comp]
  exact List.all_eq_true.mpr (fun nd _ => nodeStop_allStopped nd)

theorem nodeStop_eq_of_stopped (nd : List Pad)
    (h : nd.all (fun pad => !pad.started) = true) : nodeStop nd = nd := by
  induction nd with
  | nil => rfl
  | cons p rest ih =>
    simp only [List.all_cons, Bool.and_eq_true, Bool.not_eq_true'] at h
    simp only [nodeStop, List.map_cons]
    rw [padStop_eq_of_not_started p h.1]
    have := ih h.2
    simp only [nodeStop] at this
    rw [this]

theorem pipelineStop_eq_of_stopped (p : List (List Pad))
    (h : allStopped p = true) : pipelineStop p = p := by
  induction p with
  | nil => rfl
  | cons nd rest ih =>
    simp only [allStopped, List.all_cons, Bool.and_eq_true] at h
    simp only [pipelineStop, List.map_cons]
    rw [nodeStop_eq_of_stopped nd h.1]
    have := ih h.2
    simp only [pipelineStop] at this
    rw [this]

theorem pipelineStopTraceAux_closed (cs : List ℕ) :
    ∀ n, pipelineStopTraceAux n cs =
      ((cs.enumFrom n).map
        (fun nc => (List.range nc.2).map (Ev.padStopCall nc.1))).flatten := by
  induction cs with
  | nil => intro n; rfl
  | cons c rest ih =>
    intro n
    simp only [pipelineStopTraceAux, List.enumFrom, List.map_cons, List.flatten_cons,
      nodeStopTrace, ih (n + 1)]

theorem pipelineStopTraceAux_no_hook (cs : List ℕ) :
    ∀ n, (pipelineStopTraceAux n cs).all (fun e => !e.isHook) = true := by
  induction cs with
  | nil => intro n; rfl
  | cons c rest ih =>
    intro n
    simp only [pipelineStopTraceAux, List.all_append, Bool.and_eq_true]
    refine ⟨?_, ih (n + 1)⟩
    apply List.all_eq_true.mpr
    intro e he
    simp only [nodeStopTrace, List.mem_map] at he
    obtain ⟨i, _, rfl⟩ := he
    rfl

theorem nodeStart_fails_of_any (nd : List Pad)
    (h : nd.any (fun pad => !pad.startOk) = true) : (nodeStart nd).1 = false := by
  induction nd with
  | nil => simp at h
  | cons p rest ih =>
    simp only [List.any_cons, Bool.or_eq_true, Bool.not_eq_true'] at h
    cases hso : p.startOk with
    | false =>
      simp [nodeStart, padStart, hso]
    | true =>
      have hrest : rest.any (fun pad => !pad.startOk) = true := by
        rcases h with h | h
        · rw [hso] at h; cases h
        · exact h
      rcases hr : nodeStart rest with ⟨b, rest1⟩
      have := ih hrest
      rw [hr] at this
      simp only at this
      subst this
      simp [nodeStart, padStart, hso, hr]

theorem nodeStart_stopped_of_fail (nd : List Pad)
    (h : nd.all (fun pad => !pad.started) = true) :
    (nodeStart nd).1 = false →
    (nodeStart nd).2.all (fun pad => !pad.started) = true := by
  induction nd with
  | nil => intro h1; simp [nodeStart] at h1
  | cons p rest ih =>
    simp only [List.all_cons, Bool.and_eq_true, Bool.not_eq_true'] at h
    cases hso : p.startOk with
    | false =>
      intro _
      simp only [nodeStart, padStart, hso, Bool.false_eq_true, if_false]
      simp only [List.all_cons, Bool.and_eq_true, Bool.not_eq_true']
      exact ⟨h.1, h.2⟩
    | true =>
      rcases hr : nodeStart rest with ⟨b, rest1⟩
      cases b with
      | true =>
        intro h1
        simp [nodeStart, padStart, hso, hr] at h1
      | false =>
        intro _
        have hrest := ih h.2
        rw [hr] at hrest
        have hrest1 := hrest rfl
        simp only [nodeStart, padStart, hso, if_true, hr]
        simp only [List.all_cons, Bool.and_eq_true, Bool.not_eq_true', padStop]
        exact ⟨trivial, hrest1⟩

theorem pipelineStart_fails_of_any (p : List (List Pad))
    (h : anyStartFails p = true) : (pipelineStart p).1 = false := by
  induction p with
  | nil => simp [anyStartFails] at h
  | cons nd rest ih =>
    simp only [anyStartFails, List.any_cons, Bool.or_eq_true] at h
    rcases hn : nodeStart nd with ⟨bn, nd1⟩
    cases bn with
    | false => simp [pipelineStart, hn]
    | true =>
      have hrest : anyStartFails rest = true := by
        rcases h with h | h
        · have := nodeStart_fails_of_any nd h
          rw [hn] at this
          cases this
        · exact h
      rcases hr : pipelineStart rest with ⟨b, rest1⟩
      have := ih hrest
      rw [hr] at this
      simp only at this
      subst this
      simp [pipelineStart, hn, hr]

theorem pipelineStart_stopped_of_fail (p : List (List Pad))
    (h : allStopped p = true) :
    (pipelineStart p).1 = false →
    allStopped (pipelineStart p).2 = true := by
  induction p with
  | nil => intro h1; simp [pipelineStart] at h1
  | cons nd rest ih =>
    simp only [allStopped, List.all_cons, Bool.and_eq_true] at h
    rcases hn : nodeStart nd with ⟨bn, nd1⟩
    cases bn with
    | false =>
      intro _
      have hnd := nodeStart_stopped_of_fail nd h.1
      rw [hn] at hnd
      have hnd1 := hnd rfl
      simp only [pipelineStart, hn, allStopped, List.all_cons, Bool.and_eq_true]
      exact ⟨hnd1, h.2⟩
    | true =>
      rcases hr : pipelineStart rest with ⟨b, rest1⟩
      cases b with
      | true =>
        intro h1
        simp [pipelineStart, hn, hr] at h1
      | false =>
        intro _
        have hrest := ih h.2
        rw [hr] at hrest
        have hrest1 := hrest rfl
        simp only [pipelineStart, hn, hr, allStopped, List.all_cons, Bool.and_eq_true]
        refine ⟨nodeStop_allStopped nd1, ?_⟩
        simpa [allStopped] using hrest1

/-! ## Claim C1 -/

/-- Claim C1 as stated is false on the code: on a two-node pipeline with
one pad per node, the trace of Pipeline::stop is not the claimed trace
(the stop hooks of both nodes in reverse node order followed by the pad
stops in reverse order); the code iterates forward and never invokes a
stop hook. -/
theorem c1_stop_claim_counterexample :
    pipelineStopTrace [1, 1] ≠ specPipelineStopTrace [1, 1] := by decide

/-- Claim C1, amended: Pipeline.stop stops the nodes in forward node
order, each node stopping its pads in forward pad order; no node stop
hook is invoked; and a second stop after a completed stop is a no-op on
the pad states. -/
theorem c1_amended_stop_forward_no_hooks_idempotent :
    ∀ (padCounts : List ℕ) (p : List (List Pad)),
      pipelineStopTrace padCounts =
        ((padCounts.enum.map
          (fun nc => (List.range nc.2).map (Ev.padStopCall nc.1))).flatten) ∧
      (pipelineStopTrace padCounts).all (fun e => !e.isHook) = true ∧
      pipelineStop (pipelineStop p) = pipelineStop p := by
  intro padCounts p
  refine ⟨?_, pipelineStopTraceAux_no_hook padCounts 0, ?_⟩
  · have h := pipelineStopTraceAux_closed padCounts 0
    simpa [pipelineStopTrace, List.enum] using h
  · exact pipelineStop_eq_of_stopped _ (allStopped_pipelineStop p)

/-! ## Claim C2 -/

/-- Claim C2 names a code bug: Pipeline::start never invokes any
node user start hook.  Evaluated on a pipeline of one node with one pad (the
shape of the publisher pipeline of the shared-memory unit test, whose
SharedPublisherNode::start hook must run to create the region),
Pipeline::start returns true having performed only the pad start call:
its trace contains no startHook event at all. -/
theorem c2_start_never_invokes_start_hook :
    pipelineStartTrace [[true]] = ([Ev.padStartCall 0 0], true) ∧
    (pipelineStartTrace [[true]]).1.all (fun e => !e.isHook) = true := by decide

/-! ## Claim C3 -/

/-- Claim C3: starting from a fully stopped pipeline, whenever some pad
start call fails Pipeline::start returns false, and whenever it returns
false no pad is left in a started state and a subsequent Pipeline::stop
does not change any pad state. -/
theorem c3_failed_start_leaves_nothing_started (p : List (List Pad))
    (hstopped : allStopped p = true) :
    (anyStartFails p = true → (pipelineStart p).1 = false) ∧
    ((pipelineStart p).1 = false →
      allStopped (pipelineStart p).2 = true ∧
      pipelineStop (pipelineStart p).2 = (pipelineStart p).2) := by
  refine ⟨fun h => pipelineStart_fails_of_any p h, fun h => ?_⟩
  have h1 := pipelineStart_stopped_of_fail p hstopped h
  exact ⟨h1, pipelineStop_eq_of_stopped _ h1⟩

/-- Witness for claim C3 on a concrete two-node pipeline whose second
node has a pad that fails to start. -/
theorem c3_witness :
    (pipelineStart [[(⟨true, false⟩ : Pad)], [(⟨false, false⟩ : Pad)]]).1 = false ∧
    allStopped (pipelineStart [[(⟨true, false⟩ : Pad)], [(⟨false, false⟩ : Pad)]]).2 = true ∧
    pipelineStop (pipelineStart [[(⟨true, false⟩ : Pad)], [(⟨false, false⟩ : Pad)]]).2 =
      (pipelineStart [[(⟨true, false⟩ : Pad)], [(⟨false, false⟩ : Pad)]]).2 := by
  have h := c3_failed_start_leaves_nothing_started
    [[(⟨true, false⟩ : Pad)], [(⟨false, false⟩ : Pad)]] (by decide)
  have hf := h.1 (by decide)
  exact ⟨hf, (h.2 hf).1, (h.2 hf).2⟩

/-! ## Claim C6 -/

/-- Claim C6: Node2 selects the typed handler solely by the input pad
index.  On the test instantiation with both handlers returning true: a
PacketA on pad 0 and a PacketB on pad 1 are handled, a PacketA delivered
on pad 1 is rejected although a PacketA handler exists, a PacketB on
pad 0 is rejected, and every pad index beyond 1 is rejected for every
packet. -/
theorem c6_node2_dispatch_by_pad_index (v : ℕ) (p : TestPacket) (i : ℕ) :
    testNode2Process 0 (TestPacket.a v) = true ∧
    testNode2Process 1 TestPacket.b = true ∧
    testNode2Process 1 (TestPacket.a v) = false ∧
    testNode2Process 0 TestPacket.b = false ∧
    (2 ≤ i → testNode2Process i p = false) := by
  refine ⟨rfl, rfl, rfl, rfl, fun h => ?_⟩
  have h0 : i ≠ 0 := by omega
  have h1 : i ≠ 1 := by omega
  simp [testNode2Process, node2ProcessPacket, h0, h1]

/-- Witness for claim C6: a PacketA pushed on pad index 1 is rejected, and
pad index 5 rejects a PacketB. -/
theorem c6_witness :
    testNode2Process 1 (TestPacket.a 3) = false ∧
    testNode2Process 5 TestPacket.b = false := by
  have h := c6_node2_dispatch_by_pad_index 3 TestPacket.b 5
  exact ⟨h.2.2.1, h.2.2.2.2 (by decide)⟩

/-! ## Claim C7 -/

/-- Claim C7: QueuePad::queuePacket returns false with the queue unchanged
when the pad is stopped or when the wait for space times out with the
queue still at capacity; otherwise it appends the packet at the back,
notifies m_hasPackets and returns true.  The default capacity is 4. -/
theorem c7_queuePacket_semantics {P : Type} (s : QueuePadState P) (packet : P) (timeout : ℕ) :
    (s.running = false → queuePacket s packet timeout = (false, s, false)) ∧
    (s.running = true → s.maxQueueSize ≤ s.queue.length →
      queuePacket s packet timeout = (false, s, false)) ∧
    (s.running = true → s.queue.length < s.maxQueueSize →
      queuePacket s packet timeout =
        (true, { s with queue := s.queue ++ [(timeout, packet)] }, true)) ∧
    queuePadDefaultSize = 4 := by
  refine ⟨fun h => ?_, fun h hl => ?_, fun h hl => ?_, rfl⟩
  · simp [queuePacket, h]
  · have hnl : ¬ (s.queue.length < s.maxQueueSize) := Nat.not_lt.mpr hl
    simp [queuePacket, h, hnl]
  · simp [queuePacket, h, hl]

/-- Witness for claim C7: on a running pad of capacity 4, an enqueue on an
empty queue appends and notifies, and an enqueue on a full queue of four
elements fails leaving the queue unchanged. -/
theorem c7_witness :
    queuePacket (⟨[], true, 4⟩ : QueuePadState ℕ) 7 5 =
      (true, ⟨[(5, 7)], true, 4⟩, true) ∧
    queuePacket (⟨[(0, 1), (0, 2), (0, 3), (0, 4)], true, 4⟩ : QueuePadState ℕ) 7 5 =
      (false, ⟨[(0, 1), (0, 2), (0, 3), (0, 4)], true, 4⟩, false) := by
  have h1 := c7_queuePacket_semantics (⟨[], true, 4⟩ : QueuePadState ℕ) 7 5
  have h2 := c7_queuePacket_semantics
    (⟨[(0, 1), (0, 2), (0, 3), (0, 4)], true, 4⟩ : QueuePadState ℕ) 7 5
  refine ⟨?_, h2.2.1 rfl (by decide)⟩
  have := h1.2.2.1 rfl (by decide)
  simpa using this

/-! ## Claim C8 -/

/-- Claim C8 as stated is false on the code: the outer loop of the worker
condition is while (m_isRunning), not while running or queue non-empty.
With the running flag already false and one element still queued, the
worker observed at the top of its loop exits at once instead of popping
and delivering the element, which the claimed loop condition would do. -/
theorem c8_worker_claim_counterexample :
    queueWorkerStep (P := ℕ) false [(0, 7)] = WorkerStep.exit ∧
    specWorkerStep (P := ℕ) false [(0, 7)] = WorkerStep.deliver (0, 7) [] ∧
    WorkerStep.exit ≠ specWorkerStep (P := ℕ) false [(0, 7)] := by decide

/-- Claim C8, amended: the worker loops while running is true; while
running it blocks on an empty queue and otherwise pops the head (oldest)
element and delivers it to processPacket, so delivery along the pad is
FIFO; but when it observes running equal to false at the top of the loop
it exits immediately, so packets still queued at that point are not
drained. -/
theorem c8_amended_worker_loop {P : Type} (q : List (ℕ × P)) (e : ℕ × P)
    (rest : List (ℕ × P)) :
    queueWorkerStep false q = WorkerStep.exit ∧
    queueWorkerStep (P := P) true [] = WorkerStep.blocked ∧
    queueWorkerStep true (e :: rest) = WorkerStep.deliver e rest := by
  exact ⟨rfl, rfl, rfl⟩

/-! ## Claim C9 -/

theorem splitterLoop_closed (pushResult : ℕ → ℕ → Bool) (pads : List PadType) :
    ∀ i acc,
      (splitterLoop pushResult pads i acc).1 =
        ((pads.enumFrom i).filter (fun x => (x.2).isOutput)).map Prod.fst ∧
      (splitterLoop pushResult pads i acc).2 =
        (acc &&
          ((pads.enumFrom i).filter (fun x => (x.2).isOutput)).all
            (fun x => pushResult x.1 0)) := by
  induction pads with
  | nil => intro i acc; simp [splitterLoop]
  | cons k rest ih =>
    intro i acc
    cases k with
    | OUTPUT =>
      have h := ih (i + 1) (pushResult i 0 && acc)
      constructor
      · simp only [splitterLoop, List.enumFrom, List.filter_cons, PadType.isOutput,
          if_true, List.map_cons, reduceIte, h.1]
      · simp only [splitterLoop, List.enumFrom, List.filter_cons, PadType.isOutput,
          if_true, List.all_cons, reduceIte, h.2]
        rw [Bool.and_assoc, Bool.and_left_comm]
    | INPUT =>
      have h := ih (i + 1) acc
      constructor
      · simp [splitterLoop, List.enumFrom, List.filter_cons, PadType.isOutput, h.1]
      · simp [splitterLoop, List.enumFrom, List.filter_cons, PadType.isOutput, h.2]
    | UNDEFINED =>
      have h := ih (i + 1) acc
      constructor
      · simp [splitterLoop, List.enumFrom, List.filter_cons, PadType.isOutput, h.1]
      · simp [splitterLoop, List.enumFrom, List.filter_cons, PadType.isOutput, h.2]

/-- Claim C9: ISplitter::processPacket pushes the packet with timeout 0 to
exactly the pads of kind OUTPUT, walking the pads in index order, and its
result is the conjunction of those push results (the conjunction over an
empty list being true when there is no output pad). -/
theorem c9_splitter_fans_out_to_outputs (pads : List PadType)
    (pushResult : ℕ → ℕ → Bool) :
    (splitterProcessPacket pads pushResult).1 =
      ((pads.enum.filter (fun x => (x.2).isOutput)).map Prod.fst) ∧
    (splitterProcessPacket pads pushResult).2 =
      ((pads.enum.filter (fun x => (x.2).isOutput)).all
        (fun x => pushResult x.1 0)) := by
  have h := splitterLoop_closed pushResult pads 0 true
  constructor
  · simpa [splitterProcessPacket, List.enum] using h.1
  · simpa [splitterProcessPacket, List.enum] using h.2

/-! ## Helper lemmas on the shared-memory model -/

theorem U32_eq : U32 = 4294967296 := by norm_num [U32]

theorem deserialize_state_eq (hasPad : ℕ → Bool) (createOk : Bool)
    (deser : ℕ → ℕ → Int) (pushResult : Bool) (s : ShmState) :
    (deserializeFromSharedMem hasPad createOk deser pushResult s).2 =
      { s with
        head := (s.head + 1) % s.capacity
        count := (s.count + (U32 - 1)) % U32 } := by
  simp only [deserializeFromSharedMem]
  split
  · rfl
  split
  · rfl
  split
  · rfl
  · rfl

theorem count_pred_mod (c : ℕ) (h1 : 0 < c) (h2 : c < U32) :
    (c + (U32 - 1)) % U32 = c - 1 := by
  rw [U32_eq] at h2 ⊢
  omega

theorem serialize_result_fields (hdrSize slotSize maxQ mSize : ℕ) (ser : ℕ → ℕ → Int)
    (channel : ℕ) (s : ShmState) :
    (serializeToSharedMem hdrSize slotSize maxQ mSize ser channel s).2.capacity =
      s.capacity ∧
    (serializeToSharedMem hdrSize slotSize maxQ mSize ser channel s).2.head = s.head ∧
    (((serializeToSharedMem hdrSize slotSize maxQ mSize ser channel s).1 = true ∧
      (serializeToSharedMem hdrSize slotSize maxQ mSize ser channel s).2.tail =
        (s.tail + 1) % s.capacity ∧
      (serializeToSharedMem hdrSize slotSize maxQ mSize ser channel s).2.count =
        (s.count + 1) % U32) ∨
     ((serializeToSharedMem hdrSize slotSize maxQ mSize ser channel s).1 = false ∧
      (serializeToSharedMem hdrSize slotSize maxQ mSize ser channel s).2.tail = s.tail ∧
      (serializeToSharedMem hdrSize slotSize maxQ mSize ser channel s).2.count =
        s.count)) := by
  by_cases h0 : ser s.writeOffset (mSize - s.writeOffset) < 0
  · by_cases h2 : 0 ≤ ser (arenaStart hdrSize slotSize maxQ)
        (mSize - arenaStart hdrSize slotSize maxQ)
    · simp [serializeToSharedMem, h0, h2]
    · simp [serializeToSharedMem, h0, h2]
  · have h2 : 0 ≤ ser s.writeOffset (mSize - s.writeOffset) := not_lt.mp h0
    simp [serializeToSharedMem, h0, h2]

/-! ## Claim C4 -/

/-- Claim C4 names a code bug.  The claimed reset-retry-fail behavior is
what pipeline_sharedmem_node.cpp lines 201-204 were written to do and what
the spec and the unit-test serializers (which return -1 on insufficient
space) assume, but IPacket::serializeTo is declared virtual bool, so the
result < 0 test compares a 0/1 promotion and never holds.  In the
compiled program the serialization step therefore never reports failure
(first conjunct, over every serializer and state), and on the concrete
failing input -- a serializer that always reports failure by returning
false, over a valid region with a free slot -- the delivery returns true,
the slot at the old tail 0 is consumed with recorded size 0, count rises
from 0 to 1 and tail advances to 1, instead of the claimed false return
with the slot unconsumed. -/
theorem c4_serializeTo_bool_failure_still_consumes_slot :
    (∀ (hdrSize slotSize maxQ mSize : ℕ) (ser : ℕ → ℕ → Bool) (channel : ℕ)
      (s : ShmState),
      (serializeToSharedMemProg hdrSize slotSize maxQ mSize ser channel s).1 = true) ∧
    (publisherProcessPacketProg 64 16 8 512 (fun _ _ => false) 0 true
      ⟨200, 8, 0, 0, 0, fun _ => ⟨0, 0, 0⟩⟩).1 = true ∧
    (publisherProcessPacketProg 64 16 8 512 (fun _ _ => false) 0 true
      ⟨200, 8, 0, 0, 0, fun _ => ⟨0, 0, 0⟩⟩).2.count = 1 ∧
    (publisherProcessPacketProg 64 16 8 512 (fun _ _ => false) 0 true
      ⟨200, 8, 0, 0, 0, fun _ => ⟨0, 0, 0⟩⟩).2.tail = 1 ∧
    (publisherProcessPacketProg 64 16 8 512 (fun _ _ => false) 0 true
      ⟨200, 8, 0, 0, 0, fun _ => ⟨0, 0, 0⟩⟩).2.slots 0 = ⟨0, 0, 200⟩ := by
  refine ⟨?_, by decide, by decide, by decide, by decide⟩
  intro hdrSize slotSize maxQ mSize ser channel s
  have h0 : ¬ ((((ser s.writeOffset (mSize - s.writeOffset)).toNat : ℕ) : Int) < 0) :=
    not_lt.mpr (Int.natCast_nonneg _)
  have h1 : (0 : Int) ≤ (((ser s.writeOffset (mSize - s.writeOffset)).toNat : ℕ) : Int) :=
    Int.natCast_nonneg _
  simp [serializeToSharedMemProg, h0, h1]

/-! ## Claim C5 -/

/-- Claim C5: the ring invariant (count at most capacity, head and tail in
the interval [0, capacity)) is preserved by every publisher enqueue
(waitForFreeSlot followed by serializeToSharedMem, as performed by
SharedPublisherNode::processPacket) and by every subscriber dequeue pass
(waitForPacket followed by deserializeFromSharedMem); moreover a
successful enqueue advances tail modulo capacity and increments count,
and a dequeue from a non-empty ring advances head modulo capacity and
decrements count. -/
theorem c5_ring_invariant_preserved
    (hdrSize slotSize maxQ mSize : ℕ) (ser : ℕ → ℕ → Int) (channel : ℕ)
    (isValid : Bool) (hasPad : ℕ → Bool) (createOk : Bool)
    (deser : ℕ → ℕ → Int) (pushResult : Bool) (s : ShmState)
    (hcap : 0 < s.capacity) (hcap32 : s.capacity < U32) (hinv : ringInvariant s) :
    ringInvariant
      (publisherProcessPacket hdrSize slotSize maxQ mSize ser channel isValid s).2 ∧
    ((publisherProcessPacket hdrSize slotSize maxQ mSize ser channel isValid s).1 = true →
      (publisherProcessPacket hdrSize slotSize maxQ mSize ser channel isValid s).2.tail =
        (s.tail + 1) % s.capacity ∧
      (publisherProcessPacket hdrSize slotSize maxQ mSize ser channel isValid s).2.count =
        s.count + 1) ∧
    ringInvariant (subscriberDequeueStep hasPad createOk deser pushResult s).2 ∧
    (s.count ≠ 0 →
      (subscriberDequeueStep hasPad createOk deser pushResult s).2.head =
        (s.head + 1) % s.capacity ∧
      (subscriberDequeueStep hasPad createOk deser pushResult s).2.count = s.count - 1) := by
  obtain ⟨hc, hh, ht⟩ := hinv
  have hpub :
      ringInvariant
        (publisherProcessPacket hdrSize slotSize maxQ mSize ser channel isValid s).2 ∧
      ((publisherProcessPacket hdrSize slotSize maxQ mSize ser channel isValid s).1 = true →
        (publisherProcessPacket hdrSize slotSize maxQ mSize ser channel isValid s).2.tail =
          (s.tail + 1) % s.capacity ∧
        (publisherProcessPacket hdrSize slotSize maxQ mSize ser channel isValid s).2.count =
          s.count + 1) := by
    cases hw : waitForFreeSlot isValid s with
    | false =>
      simp only [publisherProcessPacket, hw, Bool.false_eq_true, if_false]
      exact ⟨⟨hc, hh, ht⟩, by simp⟩
    | true =>
      have hne : s.capacity ≠ s.count := by
        by_contra hcc
        simp [waitForFreeSlot, hcc] at hw
      have hlt : s.count < s.capacity := lt_of_le_of_ne hc (fun he => hne he.symm)
      have hcnt : (s.count + 1) % U32 = s.count + 1 :=
        Nat.mod_eq_of_lt (lt_of_le_of_lt hlt hcap32)
      have hpp : publisherProcessPacket hdrSize slotSize maxQ mSize ser channel isValid s =
          serializeToSharedMem hdrSize slotSize maxQ mSize ser channel s := by
        simp [publisherProcessPacket, hw]
      rw [hpp]
      obtain ⟨hfc, hfh, hf⟩ := serialize_result_fields hdrSize slotSize maxQ mSize ser channel s
      rcases hf with ⟨hres, htl, hcn⟩ | ⟨hres, htl, hcn⟩
      · refine ⟨⟨?_, ?_, ?_⟩, fun _ => ⟨htl, ?_⟩⟩
        · rw [hcn, hfc, hcnt]; omega
        · rw [hfh, hfc]; exact hh
        · rw [htl, hfc]; exact Nat.mod_lt (s.tail + 1) hcap
        · rw [hcn, hcnt]
      · refine ⟨⟨?_, ?_, ?_⟩, fun htrue => ?_⟩
        · rw [hcn, hfc]; exact hc
        · rw [hfh, hfc]; exact hh
        · rw [htl, hfc]; exact ht
        · rw [hres] at htrue; cases htrue
  refine ⟨hpub.1, hpub.2, ?_, ?_⟩
  · by_cases hm : s.count = 0
    · simp only [subscriberDequeueStep, hm, if_pos rfl]
      exact ⟨hc, hh, ht⟩
    · simp [subscriberDequeueStep, hm]
      rw [deserialize_state_eq]
      refine ⟨?_, ?_, ?_⟩
      · simp only
        rw [count_pred_mod s.count (Nat.pos_of_ne_zero hm) (lt_of_le_of_lt hc hcap32)]
        omega
      · simpa using Nat.mod_lt (s.head + 1) hcap
      · simpa using ht
  · intro hm
    simp [subscriberDequeueStep, hm]
    rw [deserialize_state_eq]
    exact ⟨rfl, count_pred_mod s.count (Nat.pos_of_ne_zero hm) (lt_of_le_of_lt hc hcap32)⟩

/-- Witness for claim C5: a concrete ring of capacity 8 holding 3 packets
with head 2 and tail 5, a serializer writing 8 bytes: both the enqueue and
the dequeue preserve the invariant, the enqueue moves tail to 6 with
count 4, the dequeue moves head to 3 with count 2. -/
theorem c5_witness :
    ringInvariant
      (publisherProcessPacket 64 16 8 512 (fun _ _ => (8 : Int)) 0 true
        ⟨192, 8, 3, 2, 5, fun _ => ⟨8, 0, 192⟩⟩).2 ∧
    ringInvariant
      (subscriberDequeueStep (fun _ => true) true (fun _ _ => (0 : Int)) true
        ⟨192, 8, 3, 2, 5, fun _ => ⟨8, 0, 192⟩⟩).2 ∧
    (subscriberDequeueStep (fun _ => true) true (fun _ _ => (0 : Int)) true
        ⟨192, 8, 3, 2, 5, fun _ => ⟨8, 0, 192⟩⟩).2.count = 2 := by
  have h := c5_ring_invariant_preserved 64 16 8 512 (fun _ _ => (8 : Int)) 0 true
    (fun _ => true) true (fun _ _ => (0 : Int)) true
    ⟨192, 8, 3, 2, 5, fun _ => ⟨8, 0, 192⟩⟩
    (by decide) (by decide) ⟨by decide, by decide, by decide⟩
  exact ⟨h.1, h.2.2.1, (h.2.2.2 (by decide)).2⟩

/-! ## Claim C10 -/

theorem deserializeProg_state_eq (hasPad : ℕ → Bool) (createOk : Bool)
    (deser : ℕ → ℕ → Bool) (pushResult : Bool) (s : ShmState) :
    (deserializeFromSharedMemProg hasPad createOk deser pushResult s).2 =
      { s with
        head := (s.head + 1) % s.capacity
        count := (s.count + (U32 - 1)) % U32 } := by
  simp only [deserializeFromSharedMemProg]
  split
  · rfl
  split
  · rfl
  split
  · rfl
  · rfl

/-- Claim C10 as stated is false on the code in its deserialization
disjunct: IPacket::deserializeFrom is declared virtual bool, so the
result < 0 check at pipeline_sharedmem_node.cpp line 336 never holds.  On
a concrete ring whose head slot names an existing pad, with packet
construction succeeding, a deserializeFrom that fails (returns false) and
a push that succeeds, the dequeue step returns true and pushes the packet
downstream, where the claim demands a false return with the packet
silently dropped. -/
theorem c10_claim_counterexample :
    (deserializeFromSharedMemProg (fun _ => true) true (fun _ _ => false) true
      ⟨192, 8, 3, 2, 5, fun _ => ⟨8, 0, 192⟩⟩).1 = true := by decide

/-- Claim C10, amended: a subscriber dequeue consumes the slot at head
first, before any check: head advances modulo capacity, count is
decremented, and tail, writeOffset and the slot array are untouched in
every branch, with nothing rolled back.  When the channel of the slot has
no pad, or packet construction fails, the step returns false with the
slot consumed and the packet dropped.  A failed deserializeFrom however
is not detected, because its bool result makes the result < 0 check dead:
whenever the pad exists and construction succeeds, the packet is pushed
into the pad regardless of the deserialization result and the step
returns the push result. -/
theorem c10_amended_dequeue_consumes_slot_push_regardless
    (hasPad : ℕ → Bool) (createOk : Bool) (deser : ℕ → ℕ → Bool)
    (pushResult : Bool) (s : ShmState)
    (hcount : 0 < s.count) (hcount32 : s.count < U32) :
    (deserializeFromSharedMemProg hasPad createOk deser pushResult s).2.head =
      (s.head + 1) % s.capacity ∧
    (deserializeFromSharedMemProg hasPad createOk deser pushResult s).2.count =
      s.count - 1 ∧
    (deserializeFromSharedMemProg hasPad createOk deser pushResult s).2.tail = s.tail ∧
    (deserializeFromSharedMemProg hasPad createOk deser pushResult s).2.writeOffset =
      s.writeOffset ∧
    (deserializeFromSharedMemProg hasPad createOk deser pushResult s).2.slots = s.slots ∧
    (hasPad (s.slots s.head).channel = false →
      (deserializeFromSharedMemProg hasPad createOk deser pushResult s).1 = false) ∧
    (hasPad (s.slots s.head).channel = true → createOk = false →
      (deserializeFromSharedMemProg hasPad createOk deser pushResult s).1 = false) ∧
    (hasPad (s.slots s.head).channel = true → createOk = true →
      (deserializeFromSharedMemProg hasPad createOk deser pushResult s).1 = pushResult) := by
  have hdead : ¬ ((((deser (s.slots s.head).offset (s.slots s.head).size).toNat : ℕ) :
      Int) < 0) := not_lt.mpr (Int.natCast_nonneg _)
  refine ⟨?_, ?_, ?_, ?_, ?_, fun h => ?_, fun h1 h2 => ?_, fun h1 h2 => ?_⟩
  · rw [deserializeProg_state_eq]
  · rw [deserializeProg_state_eq]
    exact count_pred_mod s.count hcount hcount32
  · rw [deserializeProg_state_eq]
  · rw [deserializeProg_state_eq]
  · rw [deserializeProg_state_eq]
  · simp [deserializeFromSharedMemProg, h]
  · simp [deserializeFromSharedMemProg, h1, h2]
  · simp [deserializeFromSharedMemProg, h1, h2, hdead]

/-- Witness for the amended claim C10: a ring of capacity 8 with 3
packets, head 2, the pad present and construction succeeding while
deserializeFrom fails: head moves to 3, count to 2, and the step still
returns the push result true. -/
theorem c10_witness :
    (deserializeFromSharedMemProg (fun _ => true) true (fun _ _ => false) false
      ⟨192, 8, 3, 2, 5, fun _ => ⟨8, 0, 192⟩⟩).2.head = 3 ∧
    (deserializeFromSharedMemProg (fun _ => true) true (fun _ _ => false) false
      ⟨192, 8, 3, 2, 5, fun _ => ⟨8, 0, 192⟩⟩).2.count = 2 ∧
    (deserializeFromSharedMemProg (fun _ => true) true (fun _ _ => false) false
      ⟨192, 8, 3, 2, 5, fun _ => ⟨8, 0, 192⟩⟩).1 = false := by
  have h := c10_amended_dequeue_consumes_slot_push_regardless (fun _ => true) true
    (fun _ _ => false) false ⟨192, 8, 3, 2, 5, fun _ => ⟨8, 0, 192⟩⟩
    (by decide) (by decide)
  exact ⟨h.1, h.2.1, h.2.2.2.2.2.2.2 rfl rfl⟩
